import Mathlib

/-!
# Verification of the devteam multi-agent orchestration core

Shallow embedding of the permission-mode translators, the agent adapters,
the MCP scoping resolver, the streaming message processor driver, and the
Codex response normalizer, together with theorems settling the spec claims.

Conventions: machine time is a `Nat` of milliseconds; JavaScript objects
become Lean structures with `Option` fields where the source field is
optional; code that can throw returns an explicit error value.
-/

namespace DevTeam

/-! ## Permission modes

Embedding of `gemini/permission-mapper.ts` (`mapPermissionMode`,
`GEMINI_DEFAULT_PERMISSION_MODE`) and of `translatePermissionMode` from the
Claude Code adapter. The Gemini SDK `ApprovalMode` enumeration has the
string values asserted by `permission-mapper.test.ts`:
`DEFAULT = "default"`, `AUTO_EDIT = "autoEdit"`, `YOLO = "yolo"`. -/

inductive ApprovalMode where
  | DEFAULT
  | AUTO_EDIT
  | YOLO
deriving DecidableEq, Repr

/-- The string value of each Gemini SDK `ApprovalMode` member, as asserted by
the test suite (`expect(result).toBe("autoEdit")` etc.). -/
def ApprovalMode.stringValue : ApprovalMode → String
  | .DEFAULT => "default"
  | .AUTO_EDIT => "autoEdit"
  | .YOLO => "yolo"

/-- `GEMINI_DEFAULT_PERMISSION_MODE = getDefaultPermissionMode("gemini")`,
which the test suite pins to the native mode `autoEdit`. -/
def GEMINI_DEFAULT_PERMISSION_MODE : String := "autoEdit"

/-- The explicit `case` arms of `mapPermissionMode` (everything except the
`default:` fallback arm), returning `none` exactly when the input reaches the
fallback. -/
def mapPermissionModeExplicit (permissionMode : String) : Option ApprovalMode :=
  match permissionMode with
  | "default" => some ApprovalMode.DEFAULT
  | "autoEdit" => some ApprovalMode.AUTO_EDIT
  | "yolo" => some ApprovalMode.YOLO
  | "ask" => some ApprovalMode.DEFAULT
  | "auto" => some ApprovalMode.AUTO_EDIT
  | "on-failure" => some ApprovalMode.AUTO_EDIT
  | "allow-all" => some ApprovalMode.YOLO
  | _ => none

/-- `mapPermissionMode` from `gemini/permission-mapper.ts`. The source
`default:` arm recursively calls
`mapPermissionMode(GEMINI_DEFAULT_PERMISSION_MODE)`; since the default mode
`"autoEdit"` is handled by an explicit arm, that recursion terminates after
one step, which is unfolded here (the final `ApprovalMode.DEFAULT` arm is
unreachable). -/
def mapPermissionMode (permissionMode : String) : ApprovalMode :=
  match mapPermissionModeExplicit permissionMode with
  | some a => a
  | none =>
    match mapPermissionModeExplicit GEMINI_DEFAULT_PERMISSION_MODE with
    | some a => a
    | none => ApprovalMode.DEFAULT

/-- The flag record returned by `translatePermissionMode` in the Claude Code
adapter: three optional booleans, absent fields modeled as `none`. -/
structure ClaudePermissionFlags where
  autoApprove : Option Bool
  requirePlan : Option Bool
  askForConfirmation : Option Bool
deriving DecidableEq, Repr

/-- `translatePermissionMode` from the Claude Code adapter
(`claude-code-adapter`, bottom of file). The `default:` arm returns the empty
flag record. -/
def translatePermissionMode (mode : String) : ClaudePermissionFlags :=
  match mode with
  | "auto" => ⟨some true, none, none⟩
  | "allow-all" => ⟨some true, none, none⟩
  | "bypassPermissions" => ⟨some true, none, none⟩
  | "plan" => ⟨none, some true, none⟩
  | "ask" => ⟨none, none, some true⟩
  | "acceptEdits" => ⟨some false, none, some true⟩
  | _ => ⟨none, none, none⟩

/-- The unified permission-mode enumeration from `core/types.ts`
(`PermissionMode`). -/
def unifiedPermissionModes : List String :=
  ["default", "acceptEdits", "bypassPermissions", "plan", "ask", "auto",
   "on-failure", "allow-all"]

/-- The Gemini-native permission modes (`GeminiPermissionMode`). -/
def geminiNativeModes : List String := ["default", "autoEdit", "yolo"]

/-- The designated default permission mode of the Claude Code adapter
(`getConfig().defaultPermissionMode` is `"default"`). -/
def CLAUDE_DEFAULT_PERMISSION_MODE : String := "default"

/-! ## Agent adapters

Embedding of `ClaudeCodeAdapter.execute` / `CodexAdapter.execute` and
`createSession`. A call to `execute` on an existing session looks up the
session, runs the vendor call inside `try`, and on success sets the session
status to `running` (refreshing `updatedAt`) while on failure it sets the
status to `failed` (refreshing `updatedAt`) and rethrows the caught error
unchanged. The vendor call outcome is an explicit input. -/

inductive SessionStatus where
  | idle
  | running
  | completed
  | failed
deriving DecidableEq, Repr

/-- The session-state fields the adapters read and write (`status`,
`createdAt`, `updatedAt`; timestamps in milliseconds). -/
structure SessionState where
  status : SessionStatus
  createdAt : Nat
  updatedAt : Nat
deriving DecidableEq, Repr

/-- An error produced by the underlying vendor call. -/
structure VendorError where
  message : String
deriving DecidableEq, Repr

/-- The errors an adapter `execute` call can raise on a vendor failure. The
spec taxonomy names an `ExecutionError` wrapper around the cause; the
adapters themselves contain no such class and rethrow the caught error, so
only `rethrown` is ever produced by the embedded code. -/
inductive AdapterThrown where
  | executionError (cause : VendorError)
  | rethrown (cause : VendorError)
deriving DecidableEq, Repr

/-- The `AgentResponse` fields returned by `execute`. -/
structure AgentResponse where
  content : String
  status : String
  toolCalls : List String
  filesModified : List String
deriving DecidableEq, Repr

/-- `createSession` (shared shape of both adapters): fresh sessions start
`idle` with both timestamps set to the current time. -/
def createSession (now : Nat) : SessionState :=
  { status := SessionStatus.idle, createdAt := now, updatedAt := now }

namespace ClaudeCodeAdapter

/-- `ClaudeCodeAdapter.execute` on an existing session, given the outcome of
`executeClaudeCodePrompt` (the vendor call) and the current time. Returns the
raised-or-returned value together with the session state written back into
the adapter map. -/
def execute (session : SessionState)
    (vendor : Except VendorError AgentResponse) (now : Nat) :
    Except AdapterThrown AgentResponse × SessionState :=
  match vendor with
  | Except.ok response =>
      (Except.ok response,
       { session with status := SessionStatus.running, updatedAt := now })
  | Except.error e =>
      (Except.error (AdapterThrown.rethrown e),
       { session with status := SessionStatus.failed, updatedAt := now })

end ClaudeCodeAdapter

namespace CodexAdapter

/-- `CodexAdapter.execute` on an existing session; identical control flow to
the Claude Code adapter. -/
def execute (session : SessionState)
    (vendor : Except VendorError AgentResponse) (now : Nat) :
    Except AdapterThrown AgentResponse × SessionState :=
  match vendor with
  | Except.ok response =>
      (Except.ok response,
       { session with status := SessionStatus.running, updatedAt := now })
  | Except.error e =>
      (Except.error (AdapterThrown.rethrown e),
       { session with status := SessionStatus.failed, updatedAt := now })

end CodexAdapter

/-! ## MCP scoping resolver

Embedding of `getMcpServersForSession` from the shared MCP scoping utility.
The repository calls (`findAll` for enabled global servers, `listServers`
for enabled session-assigned servers) are inputs; the Handlebars template
machinery (`resolveMcpServerTemplates`, which lives in `@agor/core/mcp` and
is not part of this repository) is modelled from the spec. A templatable
config field is either a literal or a single template placeholder keyed into
the template context. -/

/-- A templatable configuration value: a literal string, or an unresolved
Handlebars placeholder referring to a context key. -/
inductive ConfigValue where
  | lit (s : String)
  | template (key : String)
deriving DecidableEq, Repr

/-- The source predicate `containsTemplate` (the value contains a
Handlebars placeholder). -/
def ConfigValue.isTemplate : ConfigValue → Bool
  | ConfigValue.template _ => true
  | ConfigValue.lit _ => false

/-- A tool-server descriptor with the fields the resolver touches. The
templatable fields are exactly the ones the source inspects: `url`, the
`env` values, and the four `auth` fields. `requiredFields` lists the names
of the config fields whose templates are required (spec: a server whose
required field fails to resolve is dropped; optional unresolved fields only
warn). -/
structure MCPServer where
  mcp_server_id : String
  name : String
  transport : String
  url : Option ConfigValue
  env : List (String × ConfigValue)
  auth_token : Option ConfigValue
  auth_api_url : Option ConfigValue
  auth_api_token : Option ConfigValue
  auth_api_secret : Option ConfigValue
  requiredFields : List String
deriving DecidableEq, Repr

/-- The template context (user environment key-value pairs). -/
def TemplateContext : Type := List (String × String)

/-- Helper: the templated occurrence of an optional scalar field. -/
def templatedOpt (fieldName : String) (v : Option ConfigValue) :
    List (String × String) :=
  match v with
  | some (ConfigValue.template k) => [(fieldName, k)]
  | _ => []

/-- All templated config fields of a server, as (field name, context key)
pairs, in the order the source checks them (env, url, auth). -/
def MCPServer.templatedFields (s : MCPServer) : List (String × String) :=
  (s.env.filterMap fun p =>
    match p.2 with
    | ConfigValue.template k => some ("env." ++ p.1, k)
    | ConfigValue.lit _ => none)
  ++ templatedOpt "url" s.url
  ++ templatedOpt "auth.token" s.auth_token
  ++ templatedOpt "auth.api_url" s.auth_api_url
  ++ templatedOpt "auth.api_token" s.auth_api_token
  ++ templatedOpt "auth.api_secret" s.auth_api_secret

/-- The `hasEnvTemplates || hasUrlTemplate || hasAuthTemplates` check of the
source: some templatable field contains a template. -/
def MCPServer.hasTemplates (s : MCPServer) : Bool :=
  !s.templatedFields.isEmpty

/-- Resolve one config value against the context: a placeholder whose key is
present becomes the literal context value; an absent key leaves the
placeholder unresolved. -/
def resolveValue (ctx : TemplateContext) : ConfigValue → ConfigValue
  | ConfigValue.template k =>
      match List.lookup k ctx with
      | some v => ConfigValue.lit v
      | none => ConfigValue.template k
  | ConfigValue.lit s => ConfigValue.lit s

/-- The server with every resolvable placeholder substituted. -/
def MCPServer.substituted (s : MCPServer) (ctx : TemplateContext) : MCPServer :=
  { s with
    url := s.url.map (resolveValue ctx)
    env := s.env.map fun p => (p.1, resolveValue ctx p.2)
    auth_token := s.auth_token.map (resolveValue ctx)
    auth_api_url := s.auth_api_url.map (resolveValue ctx)
    auth_api_token := s.auth_api_token.map (resolveValue ctx)
    auth_api_secret := s.auth_api_secret.map (resolveValue ctx) }

/-- Field names of templated fields whose context key is absent. -/
def MCPServer.unresolvedFieldNames (s : MCPServer) (ctx : TemplateContext) :
    List String :=
  (s.templatedFields.filter fun p => (List.lookup p.2 ctx).isNone).map
    Prod.fst

/-- The server has some required templated field whose key the context does
not resolve. -/
def MCPServer.hasUnresolvedRequired (s : MCPServer) (ctx : TemplateContext) :
    Bool :=
  s.templatedFields.any fun p =>
    s.requiredFields.contains p.1 && (List.lookup p.2 ctx).isNone

/-- Result record of `resolveMcpServerTemplates`. -/
structure TemplateResolution where
  isValid : Bool
  server : MCPServer
  unresolvedFields : List String
deriving DecidableEq, Repr

/-- Modelled from the spec: `resolveMcpServerTemplates` (in `@agor/core/mcp`,
not part of this repository) resolves the templated config fields of a
server against the caller-supplied template context; the result is invalid
when a required field fails to resolve, and otherwise carries the
substituted server together with the names of optional fields left
unresolved (logged as warnings). -/
def resolveMcpServerTemplates (s : MCPServer) (ctx : TemplateContext) :
    TemplateResolution :=
  { isValid := !s.hasUnresolvedRequired ctx
    server := s.substituted ctx
    unresolvedFields :=
      (s.unresolvedFieldNames ctx).filter fun n => !s.requiredFields.contains n }

/-- The `source` tag of a resolved server. -/
inductive MCPSource where
  | global
  | sessionAssigned
deriving DecidableEq, Repr

/-- `MCPServerWithSource`: a server together with where it came from. -/
structure MCPServerWithSource where
  server : MCPServer
  source : MCPSource
deriving DecidableEq, Repr

/-- Steps 1 and 2 of the resolver: push each server not already in the
`seenServerIds` set, tagged with its source, updating the seen set. Returns
the final seen set and the pushed entries in order. -/
def addUnseen (src : MCPSource) (seen : List String) :
    List MCPServer → List String × List MCPServerWithSource
  | [] => (seen, [])
  | server :: rest =>
    if seen.contains server.mcp_server_id then addUnseen src seen rest
    else
      let r := addUnseen src (server.mcp_server_id :: seen) rest
      (r.1, ⟨server, src⟩ :: r.2)

/-- Step 3 of the resolver, for a single entry: an entry with no templated
fields passes through unchanged; otherwise it is replaced by its resolved
server, or removed when a required template did not resolve. The source
iterates backwards and splices invalid entries out in place, which is an
order-preserving filter. -/
def resolveStep (ctx : TemplateContext) (entry : MCPServerWithSource) :
    Option MCPServerWithSource :=
  if entry.server.hasTemplates then
    let result := resolveMcpServerTemplates entry.server ctx
    if result.isValid then some { entry with server := result.server }
    else none
  else some entry

/-- `getMcpServersForSession`, given the repository results: all enabled
global-scope servers first, then the enabled session-assigned servers,
deduplicated by `mcp_server_id` through a shared seen set, then template
resolution dropping servers with unresolved required fields. -/
def getMcpServersForSession (globalServers sessionServers : List MCPServer)
    (ctx : TemplateContext) : List MCPServerWithSource :=
  let g := addUnseen MCPSource.global [] globalServers
  let s := addUnseen MCPSource.sessionAssigned g.1 sessionServers
  (g.2 ++ s.2).filterMap (resolveStep ctx)

/-- Spec-side dedupe: keep the first entry for each server id, scanning the
concatenated list left to right. -/
def mcpSpecDedupe (seen : List String) :
    List MCPServerWithSource → List MCPServerWithSource
  | [] => []
  | e :: rest =>
    if seen.contains e.server.mcp_server_id then mcpSpecDedupe seen rest
    else e :: mcpSpecDedupe (e.server.mcp_server_id :: seen) rest

/-- The seen-id set after scanning a list of entries (used to relate the
two-pass source dedupe to the one-pass spec dedupe). -/
def seenAfter (seen : List String) : List MCPServerWithSource → List String
  | [] => seen
  | e :: rest =>
    if seen.contains e.server.mcp_server_id then seenAfter seen rest
    else seenAfter (e.server.mcp_server_id :: seen) rest

/-- Spec-side keep-or-drop: drop a candidate whose required template field
fails to resolve against the context; keep every other candidate with its
templates resolved. -/
def mcpSpecKeep (ctx : TemplateContext) (e : MCPServerWithSource) :
    Option MCPServerWithSource :=
  if e.server.hasUnresolvedRequired ctx then none
  else some { e with server := e.server.substituted ctx }

/-- The resolver result as the spec words it: `dedupe(G ∪ A)` by id with the
global entry winning collisions, globals first then session-assigned, minus
the servers whose required template field was unresolved. -/
def mcpSpecResolve (globalServers sessionServers : List MCPServer)
    (ctx : TemplateContext) : List MCPServerWithSource :=
  (mcpSpecDedupe []
      (globalServers.map (fun s => ⟨s, MCPSource.global⟩)
        ++ sessionServers.map (fun s => ⟨s, MCPSource.sessionAssigned⟩))).filterMap
    (mcpSpecKeep ctx)

/-! ## Streaming message processor and prompt service

Embedding of `ClaudePromptService.promptSessionStreaming` and
`promptSession`. The drivers (loop structure, timeout check, session-id
persistence, end handling, the abort-vs-error catch) are translated from the
source; the `SDKMessageProcessor` itself lives in `message-processor.ts`,
which is not part of this repository, so `SDKMessageProcessor.process` and
`hasTimedOut` are modelled from the spec (section 4.3): session-id capture
from the first event revealing the vendor continuation id, chunks for
partial text, one `complete` event per assembled message, `result` then
`end` for the terminal result event, and an activity clock reset by every
event. Raw messages carry their arrival time (milliseconds) to model the
idle clock. -/

/-- The raw vendor (SDK) message shapes the processor distinguishes. -/
inductive RawKind where
  | system (sessionId : String)
  | streamText (text : String)
  | assistant (text : String)
  | userMsg (text : String)
  | result (inputTokens outputTokens : Nat)
deriving DecidableEq, Repr

/-- A raw vendor message together with its arrival time in milliseconds. -/
structure RawMessage where
  time : Nat
  kind : RawKind
deriving DecidableEq, Repr

inductive Role where
  | user
  | assistant
deriving DecidableEq, Repr

/-- The normalized events the processor can emit (`ProcessedEvent`). -/
inductive ProcessedEvent where
  | chunk (text : String)
  | complete (role : Role) (content : String)
  | result (inputTokens outputTokens : Nat)
  | session_id_captured (agentSessionId : String)
  | endEvent (reason : String)
  | stopped
  | errorEvent (message : String)
deriving DecidableEq, Repr

/-- `IDLE_TIMEOUT_MS = 300000` (5 minutes), the configured idle threshold. -/
def IDLE_TIMEOUT_MS : Nat := 300000

/-- The processor state: the session id already persisted for the session,
the id captured during this call, the streaming toggle, the idle threshold,
`lastActivityTime` and `messageCount`. -/
structure ProcState where
  existingSdkSessionId : Option String
  captured : Option String
  enableTokenStreaming : Bool
  idleTimeoutMs : Nat
  lastActivityTime : Nat
  messageCount : Nat
deriving DecidableEq, Repr

/-- Fresh processor state, `lastActivityTime` starting at construction
time. -/
def initProcState (existing : Option String) (streaming : Bool)
    (timeoutMs t0 : Nat) : ProcState :=
  { existingSdkSessionId := existing, captured := none
    enableTokenStreaming := streaming, idleTimeoutMs := timeoutMs
    lastActivityTime := t0, messageCount := 0 }

/-- Modelled from the spec: `SDKMessageProcessor.process`
(`message-processor.ts`, not part of this repository). Every message resets
the activity clock and bumps the message count; the first message revealing
a vendor continuation id different from the persisted one yields a
`session_id_captured` event; partial text becomes a `chunk` when token
streaming is enabled; each assembled message becomes one `complete` event
(never merged); the terminal result yields `result` followed by `end`. The
processor never emits `stopped` or error events itself. -/
def SDKMessageProcessor.process (st : ProcState) (m : RawMessage) :
    ProcState × List ProcessedEvent :=
  let st1 := { st with lastActivityTime := m.time
                       messageCount := st.messageCount + 1 }
  match m.kind with
  | RawKind.system sid =>
      if st1.captured.isNone && !(st1.existingSdkSessionId == some sid) then
        ({ st1 with captured := some sid },
         [ProcessedEvent.session_id_captured sid])
      else (st1, [])
  | RawKind.streamText t =>
      (st1, if st1.enableTokenStreaming then [ProcessedEvent.chunk t] else [])
  | RawKind.assistant txt => (st1, [ProcessedEvent.complete Role.assistant txt])
  | RawKind.userMsg txt => (st1, [ProcessedEvent.complete Role.user txt])
  | RawKind.result i o =>
      (st1, [ProcessedEvent.result i o, ProcessedEvent.endEvent "result"])

/-- Modelled from the spec: `hasTimedOut` is true when more than the idle
threshold has elapsed since the last activity. -/
def ProcState.hasTimedOutAt (st : ProcState) (now : Nat) : Bool :=
  st.idleTimeoutMs < now - st.lastActivityTime

/-- The full processed event sequence of a raw message list (no driver
filtering), used to state ordering properties. -/
def processAll (st : ProcState) : List RawMessage → List ProcessedEvent
  | [] => []
  | m :: rest =>
    let r := SDKMessageProcessor.process st m
    r.2 ++ processAll r.1 rest

/-- `Math.round(ms / 1000)`: milliseconds to seconds, rounding half up. -/
def roundToSeconds (ms : Nat) : Nat := (ms + 500) / 1000

/-- The JavaScript errors flowing through the prompt service: the
`AbortError` the SDK raises on cancellation, other SDK errors, the idle
timeout error thrown inside the streaming loop, and the enhanced wrapper the
streaming catch rethrows. -/
inductive JsError where
  | abortError
  | sdkError (message : String)
  | idleTimeout (idleSeconds timeoutSeconds messageCount : Nat)
  | enhanced (messageCount : Nat) (cause : JsError)
deriving DecidableEq, Repr

/-- `message.includes("abort")` as a substring test. -/
def containsAbort (s : String) : Bool := (s.splitOn "abort").length ≥ 2

/-- The message text of each error, following the source format strings. -/
def JsError.message : JsError → String
  | JsError.abortError => "This operation was aborted"
  | JsError.sdkError m => m
  | JsError.idleTimeout i t c =>
      "Claude SDK idle timeout: No activity for " ++ toString i
        ++ "s (timeout: " ++ toString t
        ++ "s). SDK may have hung or crashed. Last message type was #"
        ++ toString c ++ "."
  | JsError.enhanced c cause =>
      "Claude SDK error after " ++ toString c ++ " messages: " ++ cause.message

/-- The catch-branch test
`error.name === "AbortError" || error.message.includes("abort")`, evaluated
per error shape. Only `abortError` has the name `AbortError`; its standard
message also contains the word. The fixed idle-timeout message text and the
enhanced-wrapper prefix consist of digits and words without an `abort`
substring, so for those the test reduces to the `includes` check on the
parts that are free strings. -/
def JsError.isAbortLike : JsError → Bool
  | JsError.abortError => true
  | JsError.sdkError m => containsAbort m
  | JsError.idleTimeout _ _ _ => false
  | JsError.enhanced _ cause => containsAbort cause.message

/-- How the raw vendor stream ends once the listed messages are exhausted:
normal completion, or the iterator throwing an error (the SDK raises
`AbortError` here when the abort controller fires). -/
inductive StreamTerminal where
  | normal
  | thrown (e : JsError)
deriving DecidableEq, Repr

/-- Result of one streaming call: the events yielded to the consumer, the
sdk session ids persisted to the session store, and `none` for a normal
return or `some e` for a raised error. -/
structure StreamRun where
  events : List ProcessedEvent
  persistedSdkIds : List String
  outcome : Option JsError
deriving DecidableEq, Repr

/-- The inner per-batch loop of `promptSessionStreaming`: a captured session
id is persisted and not yielded (`continue`), an `end` event breaks out of
the batch (events after it in the batch are not yielded), anything else is
yielded. Returns (yielded events, persisted ids, saw end). -/
def dispatchBatch : List ProcessedEvent → List ProcessedEvent × List String × Bool
  | [] => ([], [], false)
  | ProcessedEvent.session_id_captured sid :: rest =>
      let r := dispatchBatch rest
      (r.1, sid :: r.2.1, r.2.2)
  | ProcessedEvent.endEvent _ :: _ => ([], [], true)
  | ev :: rest =>
      let r := dispatchBatch rest
      (ev :: r.1, r.2.1, r.2.2)

/-- The `for await` body of `promptSessionStreaming`: on each arriving
message, first the timeout check (throwing the idle-timeout error), then
processing and batch dispatch, breaking the loop after a batch containing
`end`. Returns the final processor state, the yielded events, the persisted
ids, an internally thrown error if any, and whether the loop broke on
`end`. -/
def streamLoop (st : ProcState) :
    List RawMessage →
      ProcState × List ProcessedEvent × List String × Option JsError × Bool
  | [] => (st, [], [], none, false)
  | m :: rest =>
    if st.hasTimedOutAt m.time then
      (st, [], [],
       some (JsError.idleTimeout (roundToSeconds (m.time - st.lastActivityTime))
          (roundToSeconds st.idleTimeoutMs) st.messageCount), false)
    else
      let p := SDKMessageProcessor.process st m
      let d := dispatchBatch p.2
      if d.2.2 then (p.1, d.1, d.2.1, none, true)
      else
        let r := streamLoop p.1 rest
        (r.1, d.1 ++ r.2.1, d.2.1 ++ r.2.2.1, r.2.2.2.1, r.2.2.2.2)

/-- `promptSessionStreaming`: runs the loop; an error thrown inside the
`try` (idle timeout) or by the iterator itself reaches the catch, where an
abort-like error yields one `stopped` event and returns normally, and any
other error is rethrown wrapped in the enhanced message-count context. A
loop that broke on `end` returns without observing the stream terminal. -/
def promptSessionStreaming (existing : Option String) (timeoutMs t0 : Nat)
    (msgs : List RawMessage) (terminal : StreamTerminal) : StreamRun :=
  let st0 := initProcState existing true timeoutMs t0
  let r := streamLoop st0 msgs
  let stF := r.1
  let ys := r.2.1
  let ps := r.2.2.1
  let internalErr := r.2.2.2.1
  let sawEnd := r.2.2.2.2
  match internalErr with
  | some e =>
      if e.isAbortLike then
        { events := ys ++ [ProcessedEvent.stopped], persistedSdkIds := ps
          outcome := none }
      else
        { events := ys, persistedSdkIds := ps
          outcome := some (JsError.enhanced stF.messageCount e) }
  | none =>
    if sawEnd then { events := ys, persistedSdkIds := ps, outcome := none }
    else
      match terminal with
      | StreamTerminal.normal =>
          { events := ys, persistedSdkIds := ps, outcome := none }
      | StreamTerminal.thrown e =>
          if e.isAbortLike then
            { events := ys ++ [ProcessedEvent.stopped], persistedSdkIds := ps
              outcome := none }
          else
            { events := ys, persistedSdkIds := ps
              outcome := some (JsError.enhanced stF.messageCount e) }

/-- `PromptResult` of the non-streaming `promptSession`: the assistant
messages kept as separate entries, plus token counts. -/
structure PromptResult where
  messages : List String
  inputTokens : Nat
  outputTokens : Nat
deriving DecidableEq, Repr

/-- The inner event loop of `promptSession`: collect `complete` events with
the assistant role, capture usage from `result` events (later assignments
overwrite earlier ones), break the batch on `end`. -/
def collectBatch : List ProcessedEvent → List String × Option (Nat × Nat)
  | [] => ([], none)
  | ProcessedEvent.endEvent _ :: _ => ([], none)
  | ProcessedEvent.complete Role.assistant c :: rest =>
      let r := collectBatch rest
      (c :: r.1, r.2)
  | ProcessedEvent.result i o :: rest =>
      let r := collectBatch rest
      (r.1, some (r.2.getD (i, o)))
  | _ :: rest => collectBatch rest

/-- The `for await` loop of `promptSession`: unlike the streaming variant it
performs no timeout check and an `end` event only ends its own batch, not
the outer loop. -/
def sessionLoop (st : ProcState) :
    List RawMessage → List String × Option (Nat × Nat)
  | [] => ([], none)
  | m :: rest =>
    let p := SDKMessageProcessor.process st m
    let b := collectBatch p.2
    let r := sessionLoop p.1 rest
    (b.1 ++ r.1, match r.2 with | some u => some u | none => b.2)

/-- `promptSession` (non-streaming): processes the whole stream with token
streaming disabled; an abort-like iterator error returns the messages
collected so far as a successful result, any other error is rethrown
unchanged. -/
def promptSession (existing : Option String) (t0 : Nat)
    (msgs : List RawMessage) (terminal : StreamTerminal) :
    Except JsError PromptResult :=
  let st0 := initProcState existing false IDLE_TIMEOUT_MS t0
  let r := sessionLoop st0 msgs
  let finish : PromptResult :=
    { messages := r.1
      inputTokens := (r.2.map Prod.fst).getD 0
      outputTokens := (r.2.map Prod.snd).getD 0 }
  match terminal with
  | StreamTerminal.normal => Except.ok finish
  | StreamTerminal.thrown e =>
      if e.isAbortLike then Except.ok finish else Except.error e

/-- The content of an assistant raw message, `none` for any other shape. -/
def assistantText (m : RawMessage) : Option String :=
  match m.kind with
  | RawKind.assistant t => some t
  | _ => none

/-- Whether an event is a `complete` event with the assistant role. -/
def isAssistantComplete : ProcessedEvent → Bool
  | ProcessedEvent.complete Role.assistant _ => true
  | _ => false

/-- Every arrival gap in the message list stays within the idle threshold,
measuring each message against the arrival time of its predecessor (the
activity clock reset). -/
def gapsWithin (timeoutMs : Nat) (last : Nat) : List RawMessage → Bool
  | [] => true
  | m :: rest => decide (m.time - last ≤ timeoutMs) && gapsWithin timeoutMs m.time rest

/-! ## Codex response normalizer

Embedding of `CodexNormalizer.normalize` from `codex/normalizer.ts`. The
model table (`codex/models.ts`) is not part of this repository; its
constants are modelled from the behaviour its test suite pins down. -/

/-- Modelled from the spec and the codex models test suite: the default
Codex model reported when the event carries none. -/
def DEFAULT_CODEX_MODEL : String := "gpt-5-codex"

/-- Modelled from the spec and the codex models test suite: the fallback
context-window limit for the default Codex model family. -/
def DEFAULT_CODEX_CONTEXT_LIMIT : Nat := 272000

/-- Modelled from the codex models test suite (`codex/models.ts` is not part
of this repository): case-insensitive lookup of a context-window limit with
a fallback for unknown or absent models. -/
def getCodexContextWindowLimit (model : Option String) : Nat :=
  match model with
  | none => DEFAULT_CODEX_CONTEXT_LIMIT
  | some m =>
    let lm := m.toLower
    if lm = "gpt-4o" then 128000
    else if lm = "gpt-4o-mini" then 64000
    else DEFAULT_CODEX_CONTEXT_LIMIT

/-- The `usage` object of a Codex `turn.completed` event; absent numeric
fields are `none`. -/
structure CodexUsage where
  input_tokens : Option Nat
  output_tokens : Option Nat
  cached_input_tokens : Option Nat
  total_tokens : Option Nat
deriving DecidableEq, Repr

/-- A raw Codex `turn.completed` event (`CodexSdkResponse`). -/
structure CodexSdkResponse where
  type : String
  usage : Option CodexUsage
deriving DecidableEq, Repr

/-- Normalized token usage. -/
structure TokenUsage where
  inputTokens : Nat
  outputTokens : Nat
  totalTokens : Nat
  cacheReadTokens : Nat
  cacheCreationTokens : Nat
deriving DecidableEq, Repr

/-- `NormalizedSdkData`. -/
structure NormalizedSdkData where
  tokenUsage : TokenUsage
  contextWindowLimit : Nat
  primaryModel : String
  durationMs : Option Nat
deriving DecidableEq, Repr

/-- `CodexNormalizer.normalize`: a missing `usage` yields all-zero token
counts with the default model and its limit; otherwise each count defaults
to 0 (`|| 0`), `totalTokens` is input plus output, and
`cacheCreationTokens` is always 0. Total by construction: it never
throws. -/
def CodexNormalizer.normalize (event : CodexSdkResponse) : NormalizedSdkData :=
  match event.usage with
  | none =>
      { tokenUsage :=
          { inputTokens := 0, outputTokens := 0, totalTokens := 0
            cacheReadTokens := 0, cacheCreationTokens := 0 }
        contextWindowLimit := getCodexContextWindowLimit (some DEFAULT_CODEX_MODEL)
        primaryModel := DEFAULT_CODEX_MODEL
        durationMs := none }
  | some usage =>
      let inputTokens := usage.input_tokens.getD 0
      let outputTokens := usage.output_tokens.getD 0
      let cacheReadTokens := usage.cached_input_tokens.getD 0
      { tokenUsage :=
          { inputTokens := inputTokens, outputTokens := outputTokens
            totalTokens := inputTokens + outputTokens
            cacheReadTokens := cacheReadTokens, cacheCreationTokens := 0 }
        contextWindowLimit := getCodexContextWindowLimit (some DEFAULT_CODEX_MODEL)
        primaryModel := DEFAULT_CODEX_MODEL
        durationMs := none }

/-- A string outside the unified and Gemini-native mode sets reaches the
`default:` fallback arm of `mapPermissionMode`. -/
theorem mapPermissionModeExplicit_eq_none_of_unknown (s : String)
    (h1 : s ∉ unifiedPermissionModes) (h2 : s ∉ geminiNativeModes) :
    mapPermissionModeExplicit s = none := by
  simp only [unifiedPermissionModes, geminiNativeModes, List.mem_cons,
    List.not_mem_nil, or_false, not_or] at h1 h2
  unfold mapPermissionModeExplicit
  split <;> simp_all

/-- A string outside the unified mode set reaches the `default:` arm of
`translatePermissionMode` and yields the empty flag record. -/
theorem translatePermissionMode_eq_empty_of_unknown (s : String)
    (h1 : s ∉ unifiedPermissionModes) :
    translatePermissionMode s = ⟨none, none, none⟩ := by
  simp only [unifiedPermissionModes, List.mem_cons,
    List.not_mem_nil, or_false, not_or] at h1
  unfold translatePermissionMode
  split <;> simp_all

/-- Mapping the string value of any Gemini SDK approval mode returns that
same approval mode. -/
theorem mapPermissionMode_stringValue_roundtrip (a : ApprovalMode) :
    mapPermissionMode a.stringValue = a := by
  cases a <;> decide

/-- C1: the permission-mode translators are total functions on strings that
never throw: every input maps to some native mode; any string outside the
unified and native mode sets resolves exactly to the designated default of
the agent (`autoEdit` for Gemini, the empty flag record of `default` for
Claude Code) and never to an elevated-privilege mode (`YOLO`, or
auto-approval flags). -/
theorem permission_mode_translation_safe_default (s : String)
    (h1 : s ∉ unifiedPermissionModes) (h2 : s ∉ geminiNativeModes) :
    (∀ u : String,
        mapPermissionMode u = ApprovalMode.DEFAULT
        ∨ mapPermissionMode u = ApprovalMode.AUTO_EDIT
        ∨ mapPermissionMode u = ApprovalMode.YOLO)
    ∧ mapPermissionMode s = mapPermissionMode GEMINI_DEFAULT_PERMISSION_MODE
    ∧ mapPermissionMode s ≠ ApprovalMode.YOLO
    ∧ translatePermissionMode s
        = translatePermissionMode CLAUDE_DEFAULT_PERMISSION_MODE
    ∧ (translatePermissionMode s).autoApprove ≠ some true := by
  have hexp := mapPermissionModeExplicit_eq_none_of_unknown s h1 h2
  have hmap : mapPermissionMode s = ApprovalMode.AUTO_EDIT := by
    unfold mapPermissionMode
    rw [hexp]
    rfl
  have htr := translatePermissionMode_eq_empty_of_unknown s h1
  refine ⟨fun u => ?_, ?_, ?_, ?_, ?_⟩
  · cases h : mapPermissionMode u <;> simp
  · rw [hmap]; rfl
  · rw [hmap]; intro h; cases h
  · rw [htr]; rfl
  · rw [htr]; intro h; cases h

/-- C1 witness: the unknown (malicious) input string `sudo`. -/
theorem permission_mode_translation_safe_default_witness :
    mapPermissionMode "sudo" = mapPermissionMode GEMINI_DEFAULT_PERMISSION_MODE
    ∧ mapPermissionMode "sudo" ≠ ApprovalMode.YOLO
    ∧ translatePermissionMode "sudo"
        = translatePermissionMode CLAUDE_DEFAULT_PERMISSION_MODE
    ∧ (translatePermissionMode "sudo").autoApprove ≠ some true :=
  (permission_mode_translation_safe_default "sudo" (by decide) (by decide)).2

/-- C9: permission-mode translation is idempotent: translating the string
value of a translation result changes nothing, and the designated default
mode is a fixed point of the mapping. -/
theorem mapPermissionMode_idempotent :
    (∀ s : String,
        mapPermissionMode (mapPermissionMode s).stringValue
          = mapPermissionMode s)
    ∧ (mapPermissionMode GEMINI_DEFAULT_PERMISSION_MODE).stringValue
        = GEMINI_DEFAULT_PERMISSION_MODE :=
  ⟨fun s => mapPermissionMode_stringValue_roundtrip (mapPermissionMode s),
   by decide⟩

/-- C4: evaluating the adapters at the failing input. A fresh `idle` session
and a successful vendor call leave the session status `running` (with both
the Claude Code and the Codex adapter), not `idle` or `completed` as the
claimed state machine requires. -/
theorem adapter_execute_success_sets_running :
    (ClaudeCodeAdapter.execute (createSession 1000)
        (Except.ok ⟨"Response from Claude Code", "success", [], []⟩)
        2000).2.status = SessionStatus.running
    ∧ (ClaudeCodeAdapter.execute (createSession 1000)
        (Except.ok ⟨"Response from Claude Code", "success", [], []⟩)
        2000).2.status ≠ SessionStatus.idle
    ∧ (ClaudeCodeAdapter.execute (createSession 1000)
        (Except.ok ⟨"Response from Claude Code", "success", [], []⟩)
        2000).2.status ≠ SessionStatus.completed
    ∧ (CodexAdapter.execute (createSession 1000)
        (Except.ok ⟨"Response from Codex", "success", [], []⟩)
        2000).2.status = SessionStatus.running := by
  refine ⟨rfl, ?_, ?_, rfl⟩ <;> intro h <;> cases h

/-- C5 counterexample: on a concrete vendor failure the Claude Code adapter
rethrows the original cause unchanged; it does not raise an
`ExecutionError` wrapper around it. -/
theorem adapter_execute_failure_not_wrapped :
    (ClaudeCodeAdapter.execute (createSession 1000)
        (Except.error ⟨"vendor failure"⟩) 2000).1
      = Except.error (AdapterThrown.rethrown ⟨"vendor failure"⟩)
    ∧ (ClaudeCodeAdapter.execute (createSession 1000)
        (Except.error ⟨"vendor failure"⟩) 2000).1
      ≠ Except.error (AdapterThrown.executionError ⟨"vendor failure"⟩) := by
  exact ⟨rfl, by intro h; cases h⟩

/-- C5 amended: for every call to an adapter `execute` on an existing
session, if the underlying vendor call fails then the session status is set
to `failed` with its `updatedAt` timestamp refreshed, and the original
error is re-raised to the caller unchanged (no `ExecutionError` wrapper
exists in the code); no successful `AgentResponse` is returned. -/
theorem adapter_execute_failure_marks_failed (session : SessionState)
    (e : VendorError) (now : Nat) :
    ClaudeCodeAdapter.execute session (Except.error e) now
      = (Except.error (AdapterThrown.rethrown e),
         { session with status := SessionStatus.failed, updatedAt := now })
    ∧ CodexAdapter.execute session (Except.error e) now
      = (Except.error (AdapterThrown.rethrown e),
         { session with status := SessionStatus.failed, updatedAt := now }) :=
  ⟨rfl, rfl⟩

/-- C10: the Codex normalizer is total and always reports
`totalTokens = inputTokens + outputTokens` and `cacheCreationTokens = 0`;
when the event carries no usage field, every token count is zero and the
default model with its context-window limit is reported. -/
theorem codex_normalize_token_totals (event : CodexSdkResponse) :
    ((CodexNormalizer.normalize event).tokenUsage.totalTokens
      = (CodexNormalizer.normalize event).tokenUsage.inputTokens
        + (CodexNormalizer.normalize event).tokenUsage.outputTokens)
    ∧ (CodexNormalizer.normalize event).tokenUsage.cacheCreationTokens = 0
    ∧ (CodexNormalizer.normalize event).primaryModel = DEFAULT_CODEX_MODEL
    ∧ (CodexNormalizer.normalize event).contextWindowLimit
        = getCodexContextWindowLimit (some DEFAULT_CODEX_MODEL)
    ∧ (event.usage = none →
        (CodexNormalizer.normalize event).tokenUsage
          = ⟨0, 0, 0, 0, 0⟩) := by
  obtain ⟨ty, u⟩ := event
  cases u <;> simp [CodexNormalizer.normalize]

/-- C10 witness: a `turn.completed` event without usage data. -/
theorem codex_normalize_token_totals_witness :
    (CodexNormalizer.normalize ⟨"turn.completed", none⟩).tokenUsage
      = ⟨0, 0, 0, 0, 0⟩ :=
  (codex_normalize_token_totals ⟨"turn.completed", none⟩).2.2.2.2 rfl

/-- The entries pushed by one dedupe pass are the keep-first dedupe of the
tagged list, for any incoming seen set. -/
theorem addUnseen_snd (src : MCPSource) (l : List MCPServer) :
    ∀ seen : List String,
      (addUnseen src seen l).2
        = mcpSpecDedupe seen (l.map fun s => ⟨s, src⟩) := by
  induction l with
  | nil => intro seen; rfl
  | cons server rest ih =>
    intro seen
    by_cases h : server.mcp_server_id ∈ seen
    · simp [addUnseen, mcpSpecDedupe, h, ih]
    · simp [addUnseen, mcpSpecDedupe, h, ih]

/-- The seen set produced by one dedupe pass is `seenAfter` of the tagged
list. -/
theorem addUnseen_fst (src : MCPSource) (l : List MCPServer) :
    ∀ seen : List String,
      (addUnseen src seen l).1 = seenAfter seen (l.map fun s => ⟨s, src⟩) := by
  induction l with
  | nil => intro seen; rfl
  | cons server rest ih =>
    intro seen
    by_cases h : server.mcp_server_id ∈ seen
    · simp [addUnseen, seenAfter, h, ih]
    · simp [addUnseen, seenAfter, h, ih]

/-- Keep-first dedupe splits over list append through the seen set. -/
theorem mcpSpecDedupe_append (xs ys : List MCPServerWithSource) :
    ∀ seen : List String,
      mcpSpecDedupe seen (xs ++ ys)
        = mcpSpecDedupe seen xs ++ mcpSpecDedupe (seenAfter seen xs) ys := by
  induction xs with
  | nil => intro seen; rfl
  | cons e rest ih =>
    intro seen
    by_cases h : e.server.mcp_server_id ∈ seen
    · simp [mcpSpecDedupe, seenAfter, h, ih]
    · simp [mcpSpecDedupe, seenAfter, h, ih]

/-- Resolving a value with no template placeholder changes nothing. -/
theorem resolveValue_eq_self (ctx : TemplateContext) (v : ConfigValue)
    (h : v.isTemplate = false) : resolveValue ctx v = v := by
  cases v with
  | lit s => rfl
  | template k => simp [ConfigValue.isTemplate] at h

/-- An optional field with no templated occurrence maps to itself. -/
theorem templatedOpt_map_self (ctx : TemplateContext) (fieldName : String)
    (o : Option ConfigValue) (h : templatedOpt fieldName o = []) :
    o.map (resolveValue ctx) = o := by
  cases o with
  | none => rfl
  | some v =>
    cases v with
    | lit s => rfl
    | template k => simp [templatedOpt] at h

/-- An env list with no templated values maps to itself. -/
theorem env_map_self (ctx : TemplateContext) (env : List (String × ConfigValue))
    (h : (env.filterMap fun p =>
            match p.2 with
            | ConfigValue.template k => some ("env." ++ p.1, k)
            | ConfigValue.lit _ => none) = []) :
    (env.map fun p => (p.1, resolveValue ctx p.2)) = env := by
  induction env with
  | nil => rfl
  | cons p rest ih =>
    simp only [List.filterMap_cons] at h
    cases hv : p.2 with
    | lit s =>
      simp only [hv] at h
      have hval : resolveValue ctx p.2 = p.2 := by rw [hv]; rfl
      simp only [List.map_cons, ih h, hval]
    | template k => simp [hv] at h

/-- A server with no templated fields is unchanged by substitution. -/
theorem substituted_of_no_templates (s : MCPServer) (ctx : TemplateContext)
    (h : s.templatedFields = []) : s.substituted ctx = s := by
  simp only [MCPServer.templatedFields, List.append_eq_nil] at h
  obtain ⟨⟨⟨⟨⟨h1, h2⟩, h3⟩, h4⟩, h5⟩, h6⟩ := h
  unfold MCPServer.substituted
  cases s with
  | mk sid nm tr url env tok aurl atok asec req =>
    simp only [MCPServer.mk.injEq, eq_self_iff_true, true_and, and_true]
    exact ⟨templatedOpt_map_self ctx "url" url h2,
      env_map_self ctx env h1,
      templatedOpt_map_self ctx "auth.token" tok h3,
      templatedOpt_map_self ctx "auth.api_url" aurl h4,
      templatedOpt_map_self ctx "auth.api_token" atok h5,
      templatedOpt_map_self ctx "auth.api_secret" asec h6⟩

/-- The source per-entry resolution step agrees with the spec-side
keep-or-drop. -/
theorem resolveStep_eq_mcpSpecKeep (ctx : TemplateContext)
    (e : MCPServerWithSource) : resolveStep ctx e = mcpSpecKeep ctx e := by
  unfold resolveStep mcpSpecKeep resolveMcpServerTemplates
  by_cases ht : e.server.hasTemplates
  · simp only [ht, if_true]
    by_cases hr : e.server.hasUnresolvedRequired ctx <;> simp [hr]
  · simp only [ht, if_false]
    have hnil : e.server.templatedFields = [] := by
      unfold MCPServer.hasTemplates at ht
      simpa using ht
    have hreq : e.server.hasUnresolvedRequired ctx = false := by
      unfold MCPServer.hasUnresolvedRequired
      rw [hnil]
      rfl
    rw [hreq]
    simp only [Bool.false_eq_true, if_false]
    rw [substituted_of_no_templates _ _ hnil]

/-- Bool helper for `any` over `filter`. -/
theorem any_filter_eq (l : List α) (c g : α → Bool) :
    (l.filter c).any g = l.any fun a => c a && g a := by
  induction l with
  | nil => rfl
  | cons a rest ih =>
    simp only [List.filter_cons, List.any_cons]
    by_cases h : c a
    · simp [h, List.any_cons, ih]
    · simp [h, ih]

/-- The env part of the templated-field list, after substitution. -/
theorem envPart_substituted (ctx : TemplateContext)
    (env : List (String × ConfigValue)) :
    (List.filterMap (fun p =>
        match p.2 with
        | ConfigValue.template k => some ("env." ++ p.1, k)
        | ConfigValue.lit _ => none)
      (env.map fun p => (p.1, resolveValue ctx p.2)))
      = (List.filterMap (fun p =>
          match p.2 with
          | ConfigValue.template k => some ("env." ++ p.1, k)
          | ConfigValue.lit _ => none) env).filter
          fun p => (List.lookup p.2 ctx).isNone := by
  induction env with
  | nil => rfl
  | cons p rest ih =>
    simp only [List.map_cons, List.filterMap_cons]
    cases hv : p.2 with
    | lit x =>
      simp only [hv, resolveValue]
      exact ih
    | template k =>
      cases hl : List.lookup k ctx with
      | none =>
        simp only [hv, resolveValue, hl, List.filter_cons, Option.isNone_none,
          if_true]
        exact congrArg _ ih
      | some v =>
        simp only [hv, resolveValue, hl, List.filter_cons, Option.isNone_some,
          Bool.false_eq_true, if_false]
        exact ih

/-- A templated optional field, after substitution. -/
theorem templatedOpt_substituted (ctx : TemplateContext) (fieldName : String)
    (o : Option ConfigValue) :
    templatedOpt fieldName (o.map (resolveValue ctx))
      = (templatedOpt fieldName o).filter
          fun p => (List.lookup p.2 ctx).isNone := by
  cases o with
  | none => rfl
  | some v =>
    cases v with
    | lit x => rfl
    | template k =>
      cases hl : List.lookup k ctx with
      | none => simp [templatedOpt, resolveValue, List.filter_cons, hl]
      | some v2 => simp [templatedOpt, resolveValue, List.filter_cons, hl]

/-- Substitution keeps exactly the unresolved templated fields. -/
theorem templatedFields_substituted (s : MCPServer) (ctx : TemplateContext) :
    (s.substituted ctx).templatedFields
      = s.templatedFields.filter fun p => (List.lookup p.2 ctx).isNone := by
  unfold MCPServer.substituted MCPServer.templatedFields
  simp only [List.filter_append, envPart_substituted, templatedOpt_substituted]

/-- Substitution does not change whether a required field is unresolved. -/
theorem substituted_hasUnresolvedRequired (s : MCPServer)
    (ctx : TemplateContext) :
    (s.substituted ctx).hasUnresolvedRequired ctx
      = s.hasUnresolvedRequired ctx := by
  unfold MCPServer.hasUnresolvedRequired
  rw [templatedFields_substituted]
  show ((s.templatedFields.filter fun p => (List.lookup p.2 ctx).isNone).any
      fun p => s.requiredFields.contains p.1 && (List.lookup p.2 ctx).isNone) = _
  rw [any_filter_eq]
  congr 1
  funext p
  cases h1 : (List.lookup p.2 ctx).isNone <;>
    cases h2 : s.requiredFields.contains p.1 <;> simp [h1, h2]

/-- C2: for global set `G` and session-assigned set `A`, the MCP resolver
returns exactly `dedupe(G ∪ A)` by server id — globals first, the global
entry winning any id collision — with template resolution dropping (and
only dropping) servers whose required template field failed to resolve, and
the result never contains a server with an unresolved required field. -/
theorem getMcpServersForSession_spec (globalServers sessionServers :
    List MCPServer) (ctx : TemplateContext) :
    getMcpServersForSession globalServers sessionServers ctx
      = mcpSpecResolve globalServers sessionServers ctx
    ∧ ∀ e ∈ getMcpServersForSession globalServers sessionServers ctx,
        e.server.hasUnresolvedRequired ctx = false := by
  have hfun : resolveStep ctx = mcpSpecKeep ctx :=
    funext (resolveStep_eq_mcpSpecKeep ctx)
  have heq : getMcpServersForSession globalServers sessionServers ctx
      = mcpSpecResolve globalServers sessionServers ctx := by
    simp only [getMcpServersForSession, mcpSpecResolve]
    rw [addUnseen_snd, addUnseen_snd, addUnseen_fst, ← mcpSpecDedupe_append,
      hfun]
  refine ⟨heq, fun e he => ?_⟩
  rw [heq] at he
  unfold mcpSpecResolve at he
  rw [List.mem_filterMap] at he
  obtain ⟨a, _, ha⟩ := he
  unfold mcpSpecKeep at ha
  by_cases hr : a.server.hasUnresolvedRequired ctx
  · simp [hr] at ha
  · simp only [hr, Bool.false_eq_true, if_false, Option.some.injEq] at ha
    rw [← ha]
    show (a.server.substituted ctx).hasUnresolvedRequired ctx = false
    rw [substituted_hasUnresolvedRequired]
    simpa using hr

/-- C2 witness: scenario 3 of the spec. Global servers `1` (no templates)
and `2` (required url template with no context entry), session-assigned
servers `2` and `3`; the result is `[1, 3]`: the global `2` is dropped by
template resolution and the session `2` was deduplicated away by the
global entry. -/
theorem getMcpServersForSession_spec_witness :
    getMcpServersForSession
        [⟨"1", "one", "stdio", none, [], none, none, none, none, []⟩,
         ⟨"2", "two", "http", some (ConfigValue.template "TOKEN"), [],
          none, none, none, none, ["url"]⟩]
        [⟨"2", "two-s", "http", none, [], none, none, none, none, []⟩,
         ⟨"3", "three", "stdio", none, [], none, none, none, none, []⟩]
        []
      = [⟨⟨"1", "one", "stdio", none, [], none, none, none, none, []⟩,
          MCPSource.global⟩,
         ⟨⟨"3", "three", "stdio", none, [], none, none, none, none, []⟩,
          MCPSource.sessionAssigned⟩]
    ∧ (⟨⟨"1", "one", "stdio", none, [], none, none, none, none, []⟩,
          MCPSource.global⟩ : MCPServerWithSource).server.hasUnresolvedRequired
        [] = false := by
  constructor
  · decide
  · exact (getMcpServersForSession_spec
      [⟨"1", "one", "stdio", none, [], none, none, none, none, []⟩,
       ⟨"2", "two", "http", some (ConfigValue.template "TOKEN"), [],
        none, none, none, none, ["url"]⟩]
      [⟨"2", "two-s", "http", none, [], none, none, none, none, []⟩,
       ⟨"3", "three", "stdio", none, [], none, none, none, none, []⟩]
      []).2 _ (by decide)

/-- The processor only emits capture, chunk, complete, result and end
events: never `stopped` and never an error event. -/
theorem process_events_clean (st : ProcState) (m : RawMessage) :
    ∀ e ∈ (SDKMessageProcessor.process st m).2,
      e ≠ ProcessedEvent.stopped
      ∧ (∀ s, e ≠ ProcessedEvent.errorEvent s) := by
  cases hk : m.kind <;> simp only [SDKMessageProcessor.process, hk] <;>
    intro e he
  case system sid =>
    revert he
    split <;> intro he <;> simp_all
  case streamText t =>
    revert he
    split <;> intro he <;> simp_all
  case assistant txt => simp_all
  case userMsg txt => simp_all
  case result i o =>
    simp only [List.mem_cons, List.not_mem_nil, or_false] at he
    rcases he with rfl | rfl <;> simp

/-- Every event yielded out of a batch was in the batch. -/
theorem dispatchBatch_subset (l : List ProcessedEvent) :
    ∀ e ∈ (dispatchBatch l).1, e ∈ l := by
  induction l with
  | nil => intro e he; simp [dispatchBatch] at he
  | cons ev rest ih =>
    intro e he
    cases ev with
    | session_id_captured sid =>
      simp only [dispatchBatch] at he
      exact List.mem_cons_of_mem _ (ih e he)
    | endEvent r => simp [dispatchBatch] at he
    | chunk t =>
      simp only [dispatchBatch, List.mem_cons] at he
      rcases he with he | he
      · simp [he]
      · exact List.mem_cons_of_mem _ (ih e he)
    | complete role c =>
      simp only [dispatchBatch, List.mem_cons] at he
      rcases he with he | he
      · simp [he]
      · exact List.mem_cons_of_mem _ (ih e he)
    | result i o =>
      simp only [dispatchBatch, List.mem_cons] at he
      rcases he with he | he
      · simp [he]
      · exact List.mem_cons_of_mem _ (ih e he)
    | stopped =>
      simp only [dispatchBatch, List.mem_cons] at he
      rcases he with he | he
      · simp [he]
      · exact List.mem_cons_of_mem _ (ih e he)
    | errorEvent msg =>
      simp only [dispatchBatch, List.mem_cons] at he
      rcases he with he | he
      · simp [he]
      · exact List.mem_cons_of_mem _ (ih e he)

/-- A captured session id is never among the yielded batch events. -/
theorem dispatchBatch_no_capture (l : List ProcessedEvent) :
    ∀ sid, ProcessedEvent.session_id_captured sid ∉ (dispatchBatch l).1 := by
  induction l with
  | nil => intro sid h; simp [dispatchBatch] at h
  | cons ev rest ih =>
    intro sid h
    cases ev with
    | session_id_captured s2 =>
      simp only [dispatchBatch] at h
      exact ih sid h
    | endEvent r => simp [dispatchBatch] at h
    | chunk t =>
      simp only [dispatchBatch, List.mem_cons] at h
      rcases h with h | h
      · cases h
      · exact ih sid h
    | complete role c =>
      simp only [dispatchBatch, List.mem_cons] at h
      rcases h with h | h
      · cases h
      · exact ih sid h
    | result i o =>
      simp only [dispatchBatch, List.mem_cons] at h
      rcases h with h | h
      · cases h
      · exact ih sid h
    | stopped =>
      simp only [dispatchBatch, List.mem_cons] at h
      rcases h with h | h
      · cases h
      · exact ih sid h
    | errorEvent msg =>
      simp only [dispatchBatch, List.mem_cons] at h
      rcases h with h | h
      · cases h
      · exact ih sid h

/-- The events yielded by the streaming loop contain no `stopped`, no error
event and no capture event. -/
theorem streamLoop_events_clean (msgs : List RawMessage) :
    ∀ st : ProcState, ∀ e ∈ (streamLoop st msgs).2.1,
      e ≠ ProcessedEvent.stopped
      ∧ (∀ s, e ≠ ProcessedEvent.errorEvent s)
      ∧ (∀ s, e ≠ ProcessedEvent.session_id_captured s) := by
  induction msgs with
  | nil => intro st e he; simp [streamLoop] at he
  | cons m rest ih =>
    intro st e he
    by_cases ht : st.hasTimedOutAt m.time
    · simp [streamLoop, ht] at he
    · simp only [streamLoop, ht, Bool.false_eq_true, if_false] at he
      have hbatch : ∀ x ∈ (dispatchBatch
          (SDKMessageProcessor.process st m).2).1,
          x ≠ ProcessedEvent.stopped
          ∧ (∀ s, x ≠ ProcessedEvent.errorEvent s)
          ∧ (∀ s, x ≠ ProcessedEvent.session_id_captured s) := by
        intro x hx
        have hmem := dispatchBatch_subset _ x hx
        have hc := process_events_clean st m x hmem
        exact ⟨hc.1, hc.2, fun s hxc => by
          rw [hxc] at hx
          exact dispatchBatch_no_capture _ s hx⟩
      revert he
      split <;> intro he
      · exact hbatch e he
      · rw [List.mem_append] at he
        rcases he with he | he
        · exact hbatch e he
        · exact ih _ e he

/-- The streaming loop preserves the configured idle threshold. -/
theorem process_preserves_config (st : ProcState) (m : RawMessage) :
    (SDKMessageProcessor.process st m).1.idleTimeoutMs = st.idleTimeoutMs
    ∧ (SDKMessageProcessor.process st m).1.lastActivityTime = m.time
    ∧ (SDKMessageProcessor.process st m).1.messageCount
        = st.messageCount + 1 := by
  refine ⟨?_, ?_, ?_⟩ <;>
    cases hk : m.kind <;>
    simp only [SDKMessageProcessor.process, hk] <;>
    (try split) <;>
    rfl

/-- When every arrival gap stays within the threshold, the streaming loop
never throws the idle-timeout error. -/
theorem streamLoop_no_timeout (msgs : List RawMessage) :
    ∀ st : ProcState,
      gapsWithin st.idleTimeoutMs st.lastActivityTime msgs = true →
      (streamLoop st msgs).2.2.2.1 = none := by
  induction msgs with
  | nil => intro st _; rfl
  | cons m rest ih =>
    intro st hg
    simp only [gapsWithin, Bool.and_eq_true, decide_eq_true_eq] at hg
    have ht : st.hasTimedOutAt m.time = false := by
      simp only [ProcState.hasTimedOutAt]
      exact decide_eq_false (Nat.not_lt.mpr hg.1)
    simp only [streamLoop, ht, Bool.false_eq_true, if_false]
    have hcfg := process_preserves_config st m
    split
    · rfl
    · exact ih _ (by rw [hcfg.1, hcfg.2.1]; exact hg.2)


/-- The streaming loop keeps the configured idle threshold in its state. -/
theorem streamLoop_idleTimeoutMs (msgs : List RawMessage) :
    ∀ st : ProcState, (streamLoop st msgs).1.idleTimeoutMs = st.idleTimeoutMs := by
  induction msgs with
  | nil => intro st; rfl
  | cons m rest ih =>
    intro st
    by_cases ht : st.hasTimedOutAt m.time
    · simp [streamLoop, ht]
    · simp only [streamLoop, ht, Bool.false_eq_true, if_false]
      have hcfg := process_preserves_config st m
      split
      · exact hcfg.1
      · rw [ih]
        exact hcfg.1

/-- A clean loop prefix (no internal throw, no end break) counts exactly its
messages. -/
theorem streamLoop_messageCount (msgs : List RawMessage) :
    ∀ st : ProcState,
      (streamLoop st msgs).2.2.2.1 = none →
      (streamLoop st msgs).2.2.2.2 = false →
      (streamLoop st msgs).1.messageCount = st.messageCount + msgs.length := by
  induction msgs with
  | nil => intro st _ _; rfl
  | cons m rest ih =>
    intro st h1 h2
    by_cases ht : st.hasTimedOutAt m.time
    · simp [streamLoop, ht] at h1
    · simp only [streamLoop, ht, Bool.false_eq_true, if_false] at h1 h2 ⊢
      have hcfg := process_preserves_config st m
      revert h1 h2
      split <;> intro h1 h2
      · simp at h2
      · rw [ih _ h1 h2, hcfg.2.2]
        simp [List.length_cons, Nat.add_assoc, Nat.add_comm 1]

/-- Splitting the streaming loop over an append, when the prefix runs
cleanly (no internal throw, no end break). -/
theorem streamLoop_append (pre more : List RawMessage) :
    ∀ st : ProcState,
      (streamLoop st pre).2.2.2.1 = none →
      (streamLoop st pre).2.2.2.2 = false →
      streamLoop st (pre ++ more)
        = ((streamLoop (streamLoop st pre).1 more).1,
           (streamLoop st pre).2.1
             ++ (streamLoop (streamLoop st pre).1 more).2.1,
           (streamLoop st pre).2.2.1
             ++ (streamLoop (streamLoop st pre).1 more).2.2.1,
           (streamLoop (streamLoop st pre).1 more).2.2.2.1,
           (streamLoop (streamLoop st pre).1 more).2.2.2.2) := by
  induction pre with
  | nil => intro st _ _; simp [streamLoop]
  | cons m rest ih =>
    intro st h1 h2
    by_cases ht : st.hasTimedOutAt m.time
    · simp [streamLoop, ht] at h1
    · simp only [streamLoop, ht, Bool.false_eq_true, if_false,
        List.cons_append, List.append_eq] at h1 h2 ⊢
      revert h1 h2
      split <;> intro h1 h2
      · simp at h2
      · rw [ih _ h1 h2]
        simp [List.append_assoc]

/-- The persisted ids of a streaming call are exactly the loop persists. -/
theorem promptSessionStreaming_persisted (existing : Option String)
    (timeoutMs t0 : Nat) (msgs : List RawMessage) (terminal : StreamTerminal) :
    (promptSessionStreaming existing timeoutMs t0 msgs terminal).persistedSdkIds
      = (streamLoop (initProcState existing true timeoutMs t0) msgs).2.2.1 := by
  simp only [promptSessionStreaming]
  (repeat' split) <;> rfl

/-- The events of a streaming call are the loop yields, with at most one
trailing `stopped`. -/
theorem promptSessionStreaming_events (existing : Option String)
    (timeoutMs t0 : Nat) (msgs : List RawMessage) (terminal : StreamTerminal) :
    (promptSessionStreaming existing timeoutMs t0 msgs terminal).events
        = (streamLoop (initProcState existing true timeoutMs t0) msgs).2.1
    ∨ (promptSessionStreaming existing timeoutMs t0 msgs terminal).events
        = (streamLoop (initProcState existing true timeoutMs t0) msgs).2.1
          ++ [ProcessedEvent.stopped] := by
  simp only [promptSessionStreaming]
  (repeat' split) <;> first | exact Or.inl rfl | exact Or.inr rfl

/-- C3: a streaming prompt call whose raw vendor stream terminates with the
abort signal yields exactly one `stopped` event and returns normally: no
error is raised and no error event is emitted. The hypotheses say the abort
is actually observed: the loop consumed the stream without an internal
throw and without an early `end` break. -/
theorem streaming_abort_single_stopped (existing : Option String)
    (timeoutMs t0 : Nat) (msgs : List RawMessage)
    (h1 : (streamLoop (initProcState existing true timeoutMs t0)
            msgs).2.2.2.1 = none)
    (h2 : (streamLoop (initProcState existing true timeoutMs t0)
            msgs).2.2.2.2 = false) :
    (promptSessionStreaming existing timeoutMs t0 msgs
        (StreamTerminal.thrown JsError.abortError)).events.count
        ProcessedEvent.stopped = 1
    ∧ (promptSessionStreaming existing timeoutMs t0 msgs
        (StreamTerminal.thrown JsError.abortError)).outcome = none
    ∧ ∀ m, ProcessedEvent.errorEvent m
        ∉ (promptSessionStreaming existing timeoutMs t0 msgs
            (StreamTerminal.thrown JsError.abortError)).events := by
  have hclean := streamLoop_events_clean msgs
      (initProcState existing true timeoutMs t0)
  simp only [promptSessionStreaming, h1, h2, Bool.false_eq_true, if_false,
    JsError.isAbortLike, if_true]
  refine ⟨?_, trivial, ?_⟩
  · rw [List.count_append]
    have hz : ((streamLoop (initProcState existing true timeoutMs t0)
        msgs).2.1).count ProcessedEvent.stopped = 0 := by
      rw [List.count_eq_zero]
      intro hc
      exact (hclean _ hc).1 rfl
    rw [hz]
    rfl
  · intro m hm
    rw [List.mem_append] at hm
    rcases hm with hm | hm
    · exact (hclean _ hm).2.1 m rfl
    · simp at hm

/-- C3 witness: a two-message stream (init then assistant) ending in the
SDK abort. -/
theorem streaming_abort_single_stopped_witness :
    (promptSessionStreaming none 300000 0
        [⟨10, RawKind.system "sdk-1"⟩, ⟨20, RawKind.assistant "hi"⟩]
        (StreamTerminal.thrown JsError.abortError)).events.count
        ProcessedEvent.stopped = 1
    ∧ (promptSessionStreaming none 300000 0
        [⟨10, RawKind.system "sdk-1"⟩, ⟨20, RawKind.assistant "hi"⟩]
        (StreamTerminal.thrown JsError.abortError)).outcome = none := by
  have h := streaming_abort_single_stopped none 300000 0
      [⟨10, RawKind.system "sdk-1"⟩, ⟨20, RawKind.assistant "hi"⟩]
      (by decide) (by decide)
  exact ⟨h.1, h.2.1⟩


/-- C6: if the raw stream is silent for longer than the configured idle
threshold, the next arriving poll raises an error carrying the number of
idle seconds and the count of messages processed so far (the idle-timeout
error, rethrown by the catch inside the enhanced message-count context);
any event arriving before the threshold resets the idle clock and no
timeout is raised. The default threshold is 300000 ms, i.e. 300 seconds. -/
theorem idle_timeout_raises (existing : Option String) (timeoutMs t0 : Nat)
    (pre : List RawMessage) (m : RawMessage) (rest : List RawMessage)
    (terminal : StreamTerminal)
    (h1 : (streamLoop (initProcState existing true timeoutMs t0)
            pre).2.2.2.1 = none)
    (h2 : (streamLoop (initProcState existing true timeoutMs t0)
            pre).2.2.2.2 = false)
    (hgap : timeoutMs < m.time
        - (streamLoop (initProcState existing true timeoutMs t0)
            pre).1.lastActivityTime) :
    ((promptSessionStreaming existing timeoutMs t0 (pre ++ m :: rest)
        terminal).outcome
      = some (JsError.enhanced pre.length
          (JsError.idleTimeout
            (roundToSeconds (m.time
              - (streamLoop (initProcState existing true timeoutMs t0)
                  pre).1.lastActivityTime))
            (roundToSeconds timeoutMs) pre.length)))
    ∧ (∀ msgs2 : List RawMessage, gapsWithin timeoutMs t0 msgs2 = true →
        (promptSessionStreaming existing timeoutMs t0 msgs2
          StreamTerminal.normal).outcome = none)
    ∧ IDLE_TIMEOUT_MS = 300000
    ∧ roundToSeconds IDLE_TIMEOUT_MS = 300 := by
  have hmc : (streamLoop (initProcState existing true timeoutMs t0)
      pre).1.messageCount = pre.length := by
    have := streamLoop_messageCount pre
      (initProcState existing true timeoutMs t0) h1 h2
    simpa [initProcState] using this
  have hto : (streamLoop (initProcState existing true timeoutMs t0)
      pre).1.idleTimeoutMs = timeoutMs :=
    streamLoop_idleTimeoutMs pre (initProcState existing true timeoutMs t0)
  refine ⟨?_, ?_, rfl, rfl⟩
  · have hcond : (streamLoop (initProcState existing true timeoutMs t0)
        pre).1.hasTimedOutAt m.time = true := by
      simp only [ProcState.hasTimedOutAt, hto]
      exact decide_eq_true hgap
    have htm : streamLoop (streamLoop
          (initProcState existing true timeoutMs t0) pre).1 (m :: rest)
        = ((streamLoop (initProcState existing true timeoutMs t0) pre).1,
           [], [],
           some (JsError.idleTimeout
             (roundToSeconds (m.time
               - (streamLoop (initProcState existing true timeoutMs t0)
                   pre).1.lastActivityTime))
             (roundToSeconds timeoutMs) pre.length), false) := by
      simp only [streamLoop, hcond, if_true, hto, hmc]
    have happ := streamLoop_append pre (m :: rest)
      (initProcState existing true timeoutMs t0) h1 h2
    simp only [promptSessionStreaming, happ, htm, JsError.isAbortLike,
      Bool.false_eq_true, if_false, List.append_nil]
    simp [hmc]
  · intro msgs2 hg
    have hn := streamLoop_no_timeout msgs2
      (initProcState existing true timeoutMs t0) hg
    simp only [promptSessionStreaming, hn]
    split <;> rfl

/-- C6 witness: one message at 10 ms, the next at 310011 ms, threshold
300000 ms: the raised error carries 310 idle seconds and 1 processed
message. -/
theorem idle_timeout_raises_witness :
    (promptSessionStreaming none 300000 0
        ([⟨10, RawKind.assistant "a"⟩] ++ ⟨310011, RawKind.assistant "b"⟩ :: [])
        StreamTerminal.normal).outcome
      = some (JsError.enhanced 1 (JsError.idleTimeout 310 300 1)) := by
  have h := (idle_timeout_raises none 300000 0 [⟨10, RawKind.assistant "a"⟩]
      ⟨310011, RawKind.assistant "b"⟩ [] StreamTerminal.normal
      (by decide) (by decide) (by decide)).1
  exact h

/-- Processing one message produces assistant `complete` events exactly for
assistant messages. -/
theorem process_countP (st : ProcState) (m : RawMessage) :
    ((SDKMessageProcessor.process st m).2.countP isAssistantComplete)
      = (assistantText m).toList.length := by
  cases hk : m.kind <;>
    simp only [SDKMessageProcessor.process, hk, assistantText] <;>
    (try split) <;>
    simp [isAssistantComplete]

/-- The full processed sequence holds one assistant `complete` event per
assistant raw message. -/
theorem processAll_countP (msgs : List RawMessage) :
    ∀ st : ProcState,
      (processAll st msgs).countP isAssistantComplete
        = (msgs.filterMap assistantText).length := by
  induction msgs with
  | nil => intro st; rfl
  | cons m rest ih =>
    intro st
    simp only [processAll, List.countP_append, List.filterMap_cons]
    rw [process_countP, ih]
    cases ha : assistantText m <;> simp [ha, Nat.add_comm]

/-- The batch of one processed message contributes exactly the assistant
content, if any, to the collected messages. -/
theorem collectBatch_messages (st : ProcState) (m : RawMessage) :
    (collectBatch (SDKMessageProcessor.process st m).2).1
      = (assistantText m).toList := by
  cases hk : m.kind <;>
    simp only [SDKMessageProcessor.process, hk, assistantText] <;>
    (try split) <;>
    simp [collectBatch]

/-- The non-streaming loop collects the assistant messages, in order and as
separate entries. -/
theorem sessionLoop_messages (msgs : List RawMessage) :
    ∀ st : ProcState,
      (sessionLoop st msgs).1 = msgs.filterMap assistantText := by
  induction msgs with
  | nil => intro st; rfl
  | cons m rest ih =>
    intro st
    simp only [sessionLoop]
    rw [collectBatch_messages, ih]
    cases ha : assistantText m <;> simp [List.filterMap_cons, ha]

/-- C7: every assistant message in the raw stream becomes its own
`complete` event (one per message, never merged), and the non-streaming
`promptSession` returns the assistant messages as separate entries of its
messages array, in order. -/
theorem assistant_messages_stay_separate :
    (∀ (st : ProcState) (t : Nat) (txt : String),
        (SDKMessageProcessor.process st ⟨t, RawKind.assistant txt⟩).2
          = [ProcessedEvent.complete Role.assistant txt])
    ∧ (∀ (st : ProcState) (msgs : List RawMessage),
        (processAll st msgs).countP isAssistantComplete
          = (msgs.filterMap assistantText).length)
    ∧ (∀ (existing : Option String) (t0 : Nat) (msgs : List RawMessage)
        (res : PromptResult),
        promptSession existing t0 msgs StreamTerminal.normal
          = Except.ok res →
        res.messages = msgs.filterMap assistantText) := by
  refine ⟨fun st t txt => rfl, fun st msgs => processAll_countP msgs st, ?_⟩
  intro existing t0 msgs res h
  simp only [promptSession] at h
  injection h with h
  rw [← h]
  exact sessionLoop_messages msgs _

/-- C7 witness: two assistant messages before the terminal result stay two
separate entries. -/
theorem assistant_messages_stay_separate_witness :
    ({ messages := ["a1", "a2"], inputTokens := 5, outputTokens := 7 } :
        PromptResult).messages
      = List.filterMap assistantText
          [⟨1, RawKind.system "s"⟩, ⟨2, RawKind.assistant "a1"⟩,
           ⟨3, RawKind.assistant "a2"⟩, ⟨4, RawKind.result 5 7⟩] :=
  assistant_messages_stay_separate.2.2 none 0
    [⟨1, RawKind.system "s"⟩, ⟨2, RawKind.assistant "a1"⟩,
     ⟨3, RawKind.assistant "a2"⟩, ⟨4, RawKind.result 5 7⟩]
    ⟨["a1", "a2"], 5, 7⟩ rfl

/-- C8: when the first raw event reveals the vendor continuation id, the id
is persisted to the session store, the capture event is never yielded to
the consumer, and in the processed event sequence the capture precedes
every dependent `complete` and `chunk` event (it is the head). -/
theorem session_id_capture_first (existing : Option String)
    (timeoutMs t0 : Nat) (sid : String) (t : Nat) (rest : List RawMessage)
    (terminal : StreamTerminal)
    (hnew : existing ≠ some sid)
    (hgap : t - t0 ≤ timeoutMs) :
    sid ∈ (promptSessionStreaming existing timeoutMs t0
        (⟨t, RawKind.system sid⟩ :: rest) terminal).persistedSdkIds
    ∧ (∀ s2, ProcessedEvent.session_id_captured s2
        ∉ (promptSessionStreaming existing timeoutMs t0
            (⟨t, RawKind.system sid⟩ :: rest) terminal).events)
    ∧ ∃ tail, processAll (initProcState existing true timeoutMs t0)
        (⟨t, RawKind.system sid⟩ :: rest)
        = ProcessedEvent.session_id_captured sid :: tail := by
  have hb : (existing == some sid) = false := beq_eq_false_iff_ne.mpr hnew
  have hnt : (initProcState existing true timeoutMs t0).hasTimedOutAt t
      = false := by
    simp only [ProcState.hasTimedOutAt, initProcState]
    exact decide_eq_false (Nat.not_lt.mpr hgap)
  have hproc : SDKMessageProcessor.process
      (initProcState existing true timeoutMs t0) ⟨t, RawKind.system sid⟩
      = (⟨existing, some sid, true, timeoutMs, t, 1⟩,
         [ProcessedEvent.session_id_captured sid]) := by
    simp [SDKMessageProcessor.process, initProcState, hb]
  refine ⟨?_, ?_, ?_⟩
  · rw [promptSessionStreaming_persisted]
    simp only [streamLoop, hnt, Bool.false_eq_true, if_false, hproc]
    simp [dispatchBatch]
  · intro s2 hm
    rcases promptSessionStreaming_events existing timeoutMs t0
        (⟨t, RawKind.system sid⟩ :: rest) terminal with he | he
    · rw [he] at hm
      exact (streamLoop_events_clean _ _ _ hm).2.2 s2 rfl
    · rw [he, List.mem_append] at hm
      rcases hm with hm | hm
      · exact (streamLoop_events_clean _ _ _ hm).2.2 s2 rfl
      · simp at hm
  · exact ⟨processAll ⟨existing, some sid, true, timeoutMs, t, 1⟩ rest,
      by simp [processAll, hproc]⟩

/-- C8 witness: init message revealing `sdk-1`, then an assistant
message. -/
theorem session_id_capture_first_witness :
    "sdk-1" ∈ (promptSessionStreaming none 300000 0
        [⟨10, RawKind.system "sdk-1"⟩, ⟨20, RawKind.assistant "hi"⟩]
        StreamTerminal.normal).persistedSdkIds :=
  (session_id_capture_first none 300000 0 "sdk-1" 10
    [⟨20, RawKind.assistant "hi"⟩] StreamTerminal.normal
    (by decide) (by decide)).1


end DevTeam
